import Mathlib

/-!
Shallow embedding of the HarvestMCP server (the current source variant: the
one with the write throttle, the per-request credential interceptor, the
paginated assignment aggregator and the two error sanitizers), together with
theorems settling the specification claims.

Conventions used throughout the embedding:
* JavaScript strings / numbers / booleans are `String` / `ℚ` / `Bool`;
  possibly-`undefined` fields are `Option`-valued.
* JS truthiness on the values that actually occur: the empty string and the
  number 0 are falsy, every object is truthy.
* The process clock `Date.now()` is an explicit nonnegative millisecond
  parameter; the mutable `rateLimiter` state is passed explicitly.
* An awaited HTTP call is a parameter of type `Upstream _`: the environment
  decides whether the promise resolves (`ok`) or rejects (`fail`).
-/

namespace Harvest

/-- Fields of `error.response.data` (the parsed upstream body) read by the
error formatters: `message` and `error`. Absent fields are `none`. -/
structure HttpData where
  message : Option String
  error : Option String
deriving DecidableEq, Repr

/-- The `error.response` object: HTTP status code and parsed body. -/
structure HttpResp where
  status : Option Nat
  rdata : Option HttpData
deriving DecidableEq, Repr

/-- Model of a JavaScript failure value as observed by this server: the
allow-listed fields (`message`, `response.status`, `response.data.message`,
`response.data.error`, `code`) plus `cfg`, which stands for the axios request
config / headers blob that an axios error also carries (the sanitizers never
read it; it is the field through which credentials would leak). -/
structure JsError where
  message : Option String
  response : Option HttpResp
  code : Option String
  cfg : String
deriving DecidableEq, Repr

/-- `error?.response?.status` (JS optional chaining). -/
def statusOf (e : Option JsError) : Option Nat :=
  (e.bind JsError.response).bind HttpResp.status

/-- `error?.response?.data?.message`. -/
def dataMessageOf (e : Option JsError) : Option String :=
  ((e.bind JsError.response).bind HttpResp.rdata).bind HttpData.message

/-- `error?.response?.data?.error`. -/
def dataErrorOf (e : Option JsError) : Option String :=
  ((e.bind JsError.response).bind HttpResp.rdata).bind HttpData.error

/-- `error?.message`. -/
def messageFieldOf (e : Option JsError) : Option String :=
  e.bind JsError.message

/-- `error?.code`. -/
def codeOf (e : Option JsError) : Option String :=
  e.bind JsError.code

/-- JavaScript `a || b` on possibly-undefined strings: the empty string is
falsy, so it is skipped like `undefined`. -/
def jsOrStr (a b : Option String) : Option String :=
  match a with
  | some s => if s = "" then b else some s
  | none => b

/-- JavaScript `a || dflt` where `dflt` is a string literal. -/
def jsOrDefault (a : Option String) (dflt : String) : String :=
  match jsOrStr a (some dflt) with
  | some s => s
  | none => dflt

/-- The fixed remediation tail appended to permission-denied messages by
`formatHarvestError` (part_002 line 161): everything after the interpolated
message in the 403 branch. -/
def permissionHint : String :=
  ". This usually means your token lacks permission for that endpoint. Try using endpoints under /users/me/* (like /users/me/project_assignments), and verify HARVEST_ACCOUNT_ID matches the token\x27s account."

/-- The message selected by `formatHarvestError` (part_002 lines 157-158):
`(data.message || data.error) || error.message || "Unknown error"`. -/
def harvestMessageOf (e : Option JsError) : String :=
  jsOrDefault (jsOrStr (jsOrStr (dataMessageOf e) (dataErrorOf e)) (messageFieldOf e))
    "Unknown error"

/-- `formatHarvestError` (part_002 lines 155-165). The status interpolation
uses JS truthiness, so a status of 0 renders nothing, like an absent status.
Total by construction, as the source function is (it only reads optional
fields and concatenates strings). -/
def formatHarvestError (e : Option JsError) : String :=
  let status := statusOf e
  let message := harvestMessageOf e
  if status = some 403 then
    "Harvest API error (403): " ++ message ++ permissionHint
  else
    "Harvest API error" ++
      (match status with
       | some s => if s = 0 then "" else " (" ++ toString s ++ ")"
       | none => "") ++ ": " ++ message

/-- `Array.prototype.join(" | ")`. -/
def joinBar : List String → String
  | [] => ""
  | [p] => p
  | p :: q :: rest => p ++ " | " ++ joinBar (q :: rest)

/-- JS `String(error)` for the failure values occurring in this codebase: no
class here overrides `toString`, so a plain object renders as
"[object Object]" (an `Error` instance would render through its allow-listed
`message` field only). -/
def jsStringOfError (_e : JsError) : String := "[object Object]"

/-- The `parts` array built by `sanitizeErrorForLogging` (part_002 lines
174-178), in push order. Truthiness checks (`if (error.message)`,
`if (error.response?.status)`, ...) drop empty strings and a 0 status. -/
def sanitizeParts (err : JsError) : List String :=
  (match err.message with
   | some m => if m = "" then [] else [m]
   | none => []) ++
  (match statusOf (some err) with
   | some s => if s = 0 then [] else ["HTTP " ++ toString s]
   | none => []) ++
  (match dataMessageOf (some err) with
   | some m => if m = "" then [] else [m]
   | none => []) ++
  (match err.code with
   | some c => if c = "" then [] else ["code=" ++ c]
   | none => [])

/-- `sanitizeErrorForLogging` (part_002 lines 171-180). Since every pushed
part is a non-empty string, the final `parts.join(" | ") || String(error)`
falls back exactly when `parts` is empty. -/
def sanitizeErrorForLogging (e : Option JsError) : String :=
  match e with
  | none => "Unknown error"
  | some err =>
    if sanitizeParts err = [] then jsStringOfError err else joinBar (sanitizeParts err)

/-- `RATE_LIMIT_WINDOW_MS` (part_002 line 114). -/
def RATE_LIMIT_WINDOW_MS : Nat := 60000

/-- `RATE_LIMIT_MAX_WRITES` (part_002 line 115). -/
def RATE_LIMIT_MAX_WRITES : Nat := 30

/-- The pruning filter of `checkRateLimit` (part_002 lines 122-124):
keep `ts` with `now - ts < RATE_LIMIT_WINDOW_MS`. Over `Nat`, `now - ts`
truncates at zero when `ts > now`; the JS comparison also keeps such entries
(a negative difference is `< 60000`), so the two agree on every input. -/
def pruneTimestamps (now : Nat) (ts : List Nat) : List Nat :=
  ts.filter (fun t => now - t < RATE_LIMIT_WINDOW_MS)

/-- `checkRateLimit` (part_002 lines 119-131) in state-passing form:
`(admitted, new timestamps)`. `admitted = false` models the thrown
rate-limit `Error`; the assignment `rateLimiter.timestamps = pruned` has
already happened when the function throws, and `push(now)` runs only on
admission. -/
def checkRateLimit (now : Nat) (ts : List Nat) : Bool × List Nat :=
  let pruned := pruneTimestamps now ts
  if RATE_LIMIT_MAX_WRITES ≤ pruned.length then (false, pruned)
  else (true, pruned ++ [now])

/-- The message of the throttling error thrown at part_002 lines 126-128,
with the constants interpolated (`60000 / 1000 = 60`). -/
def rateLimitMessage : String :=
  "Rate limit exceeded: maximum 30 write operations per 60s. Please wait before retrying."

/-- The thrown rate-limit `Error` as the handler catch blocks see it: a plain
`Error` with only a message (no response, no code, no request config). -/
def rateLimitError : JsError :=
  { message := some rateLimitMessage, response := none, code := none, cfg := "" }

/-- A sequence of write-admission checks against the shared throttle state:
the list of admission results and the final timestamp state. -/
def runWrites : List Nat → List Nat → List Bool × List Nat
  | [], st => ([], st)
  | t :: rest, st =>
    let r := checkRateLimit t st
    let rr := runWrites rest r.2
    (r.1 :: rr.1, rr.2)

/-- One page of the paginated `/users/me/project_assignments` response body:
its `project_assignments` array (absent modeled as `none`, the source applies
`|| []`) and the server-indicated `next_page`. -/
structure PageResp (α : Type) where
  project_assignments : Option (List α)
  next_page : Option Nat
deriving DecidableEq, Repr

/-- The `while (true)` loop of `getMyProjectAssignments` (part_002 lines
191-206), with explicit fuel standing for the unbounded loop (`none` models
divergence; never reached once the server terminates the next_page chain).
`server page` models `GET /users/me/project_assignments` with that `page`
parameter (the constant `per_page = 100` is absorbed into `server`).
`if (data.next_page)` uses JS truthiness, so `next_page = 0` also breaks. -/
def getAssignmentsLoop {α : Type} (server : Nat → PageResp α) :
    Nat → Nat → List α → Option (List α)
  | 0, _, _ => none
  | fuel + 1, page, acc =>
    let data := server page
    let acc' := acc ++ data.project_assignments.getD []
    match data.next_page with
    | some np => if np = 0 then some acc' else getAssignmentsLoop server fuel np acc'
    | none => some acc'

/-- `getMyProjectAssignments` (part_002 lines 186-209): start at page 1 with
an empty accumulator. -/
def getMyProjectAssignments {α : Type} (server : Nat → PageResp α) (fuel : Nat) :
    Option (List α) :=
  getAssignmentsLoop server fuel 1 []

/-- A well-formed next_page chain for `server`: the listed pages are linked in
order by the server-indicated `next_page` (each link truthy), and the last
listed page indicates no further page. -/
def nextChainOk {α : Type} (server : Nat → PageResp α) : List Nat → Bool
  | [] => false
  | [p] => (server p).next_page = none
  | p :: q :: rest =>
    ((server p).next_page = some q) && (q != 0) && nextChainOk server (q :: rest)

/-- Milliseconds per day. -/
def MS_PER_DAY : Nat := 86400000

/-- Proleptic Gregorian civil date `(year, month, day)` from a count of days
since 1970-01-01, valid for nonnegative day counts (all post-epoch clock
readings); the standard era-based algorithm, i.e. exactly the date that
`Date.prototype.toISOString` renders for such an instant. -/
def civilFromDays (z : Nat) : Nat × Nat × Nat :=
  let z' := z + 719468
  let era := z' / 146097
  let doe := z' % 146097
  let yoe := (doe - doe / 1460 + doe / 36524 - doe / 146096) / 365
  let y := era * 400 + yoe
  let doy := doe - (365 * yoe + yoe / 4 - yoe / 100)
  let mp := (5 * doy + 2) / 153
  let d := doy - (153 * mp + 2) / 5 + 1
  let m := if mp < 10 then mp + 3 else mp - 9
  (if m ≤ 2 then y + 1 else y, m, d)

/-- Zero-pad to two digits. -/
def pad2n (n : Nat) : String := (if n < 10 then "0" else "") ++ toString n

/-- Zero-pad to four digits (the year field of an ISO-8601 timestamp). -/
def pad4 (n : Nat) : String :=
  (if n < 10 then "000" else if n < 100 then "00" else if n < 1000 then "0" else "") ++
    toString n

/-- `formatDate` (part_002 lines 146-148): `date.toISOString().split('T')[0]`,
the UTC calendar date `YYYY-MM-DD` of the epoch-millisecond clock reading.
It is a function of the instant alone; no time-zone offset enters. -/
def formatDate (ms : Nat) : String :=
  let c := civilFromDays (ms / MS_PER_DAY)
  pad4 c.1 ++ "-" ++ pad2n c.2.1 ++ "-" ++ pad2n c.2.2

/-- The calendar date a host in a zone `offMin` minutes ahead of UTC
(negative = behind) would show for the same instant: the UTC clock shifted by
the offset. Not computed anywhere in the source; defined here only as the
contrast for the time-zone claim. Defined for readings where the shifted
clock is still nonnegative. -/
def localDateString (ms : Nat) (offMin : Int) : String :=
  formatDate ((ms : Int) + offMin * 60000).toNat

/-- Decimal rendering of a rational with a finite decimal expansion of at most
18 fraction digits — the only number values this server interpolates into
strings (JSON numbers echoed back by Harvest). Models the JS number-to-string
conversion on such values ("2.25", "1", "0.5"); other rationals (never
produced here) fall back to the raw `Rat` rendering. -/
def ratToJsString (q : ℚ) : String :=
  let sign := if q < 0 then "-" else ""
  let a := |q|
  match (List.range 19).find? (fun k => (a * 10 ^ k).den = 1) with
  | some k =>
    let n := (a * 10 ^ k).num.toNat
    if k = 0 then sign ++ toString n
    else
      let ip := n / 10 ^ k
      let fs := toString (n % 10 ^ k)
      let fs := String.mk (List.replicate (k - fs.length) '0') ++ fs
      sign ++ toString ip ++ "." ++ fs
  | none => toString q

/-- The two decimal digits of `m < 100`, as characters. -/
def twoDigits (m : Nat) : String :=
  String.mk [Char.ofNat (48 + m / 10 % 10), Char.ofNat (48 + m % 10)]

/-- `Number.prototype.toFixed(2)` on an exact rational reading of the value:
round to the nearest hundredth with ties toward positive infinity (ECMA picks
the larger candidate on ties), then render with exactly two fraction
digits. (JS would render a negative zero for small negative inputs; the only
values reaching this in the source are sums of schema-bounded nonnegative
hours.) -/
def toFixed2 (q : ℚ) : String :=
  let n : Int := ⌊q * 100 + 1 / 2⌋
  let sign := if n < 0 then "-" else ""
  let m := n.natAbs
  sign ++ toString (m / 100) ++ "." ++ twoDigits (m % 100)

/-- JSON scalar values appearing in this server's stringified output. -/
inductive JVal where
  | null
  | bool (b : Bool)
  | num (q : ℚ)
  | str (s : String)
deriving DecidableEq, Repr

/-- JSON string escaping (the characters that can occur in Harvest text
fields). -/
def jsonEscape (s : String) : String :=
  String.join (s.data.map fun c =>
    if c = '"' then "\\\""
    else if c = '\\' then "\\\\"
    else if c = '\n' then "\\n"
    else if c = '\t' then "\\t"
    else if c = '\r' then "\\r"
    else String.mk [c])

/-- Render one JSON scalar. -/
def renderJVal : JVal → String
  | .null => "null"
  | .bool true => "true"
  | .bool false => "false"
  | .num q => ratToJsString q
  | .str s => "\"" ++ jsonEscape s ++ "\""

/-- One object of a `JSON.stringify(_, null, 2)` array: a field holding
`none` models a JS `undefined` property, which `JSON.stringify` drops. -/
def renderRow (fields : List (String × Option JVal)) : String :=
  let fs := fields.filterMap fun kv =>
    kv.2.map fun v => "\"" ++ kv.1 ++ "\": " ++ renderJVal v
  match fs with
  | [] => "  \x7b\x7d"
  | _ =>
    "  \x7b\n" ++ String.intercalate ",\n" (fs.map fun f => "    " ++ f) ++ "\n  \x7d"

/-- `JSON.stringify(rows, null, 2)` for an array of flat objects — the only
shape this server stringifies. -/
def stringify2 (rows : List (List (String × Option JVal))) : String :=
  match rows with
  | [] => "[]"
  | _ => "[\n" ++ String.intercalate ",\n" (rows.map renderRow) ++ "\n]"

/-- The outcome of one awaited HTTP call: the promise resolves with a body, or
rejects with a failure value. -/
inductive Upstream (α : Type) where
  | ok (val : α)
  | fail (err : JsError)
deriving Repr

/-- The uniform MCP response envelope `{content: [{type: "text", text}],
isError?}`; an absent `isError` is `false`. -/
structure Envelope where
  text : String
  isError : Bool
deriving DecidableEq, Repr

/-- An upstream object that the success paths dereference without optional
chaining (`entry.project.name`): id and name are present. -/
structure NamedRef where
  id : Int
  name : String
deriving DecidableEq, Repr

/-- `assignment.task_assignments[i].task`: id or name may be absent (the
handler filters on `typeof`). A present id models a JSON number, a present
name a JSON string. -/
structure TaskRef where
  id : Option Int
  name : Option String
deriving DecidableEq, Repr

/-- One element of `assignment.task_assignments`. `billable` may be absent
(dropped by `JSON.stringify`); `hourly_rate` may be absent, `null`, or a
number, carried through verbatim. -/
structure TaskAssignment where
  task : Option TaskRef
  is_active : Bool
  billable : Option Bool
  hourly_rate : Option JVal
deriving DecidableEq, Repr

/-- `pa.project`: the embedded project; its id may be absent. -/
structure ProjectRef where
  id : Option Int
  name : Option String
deriving DecidableEq, Repr

/-- One element of the aggregated `project_assignments` array, restricted to
the fields `list_project_tasks` reads. `task_assignments` absent models the
`assignment.task_assignments || []` guard. -/
structure ProjectAssignment where
  project : Option ProjectRef
  task_assignments : Option (List TaskAssignment)
deriving DecidableEq, Repr

/-- `projectAssignments.find(pa => pa.project?.id === project_id)`
(part_002 line 288): strict equality, so an absent project or id never
matches. -/
def findAssignment (pas : List ProjectAssignment) (pid : Int) :
    Option ProjectAssignment :=
  pas.find? fun pa => (pa.project.bind ProjectRef.id) = some pid

/-- The mapped task record of part_002 lines 302-310. -/
structure TaskView where
  id : Option Int
  name : Option String
  is_active : Bool
  billable : Option Bool
  hourly_rate : Option JVal
deriving DecidableEq, Repr

/-- The `.map` step of part_002 lines 304-310. -/
def toTaskView (ta : TaskAssignment) : TaskView :=
  { id := ta.task.bind TaskRef.id
    name := ta.task.bind TaskRef.name
    is_active := ta.is_active
    billable := ta.billable
    hourly_rate := ta.hourly_rate }

/-- The `typeof t.id === "number" && typeof t.name === "string"` filter
(part_002 line 311). -/
def taskViewOk (t : TaskView) : Bool :=
  t.id.isSome && t.name.isSome

/-- JSON row of one task record. -/
def taskViewRow (t : TaskView) : List (String × Option JVal) :=
  [("id", (t.id).map fun i => JVal.num i),
   ("name", (t.name).map JVal.str),
   ("is_active", some (JVal.bool t.is_active)),
   ("billable", (t.billable).map JVal.bool),
   ("hourly_rate", t.hourly_rate)]

/-- The not-found message of part_002 line 295. -/
def noAssignmentMessage (pid : Int) : String :=
  "No project assignment found for project_id " ++ toString pid ++
    ". If this project exists but isn\x27t listed, you may not be assigned to it in Harvest."

/-- The `list_project_tasks` handler (part_002 lines 285-332) after the
assignments fetch: maps the fetched array and the requested project_id to the
response envelope. The second component counts upstream calls issued after
that fetch — structurally zero on every path, because the handler reads the
embedded `task_assignments` instead of calling `/projects/:id/task_assignments`. -/
def listProjectTasksRun (pas : List ProjectAssignment) (pid : Int) : Envelope × Nat :=
  match findAssignment pas pid with
  | none => ({ text := noAssignmentMessage pid, isError := true }, 0)
  | some pa =>
    let tasks :=
      (((pa.task_assignments.getD []).filter TaskAssignment.is_active).map toTaskView).filter
        taskViewOk
    ({ text := stringify2 (tasks.map taskViewRow), isError := false }, 0)

/-- One raw time entry of the `/time_entries` response as the success path of
`get_todays_time` dereferences it (`e.project.name`, `e.task.name` without
optional chaining). `notes` may be `null`. -/
structure RawTimeEntry where
  id : Int
  project : NamedRef
  task : NamedRef
  hours : ℚ
  notes : Option String
  is_running : Bool
deriving DecidableEq, Repr

/-- The mapped entry record of part_002 lines 409-416. -/
structure EntryView where
  id : Int
  project : String
  task : String
  hours : ℚ
  notes : Option String
  is_running : Bool
deriving DecidableEq, Repr

/-- The `.map` step of part_002 lines 409-416. -/
def toEntryView (e : RawTimeEntry) : EntryView :=
  { id := e.id, project := e.project.name, task := e.task.name,
    hours := e.hours, notes := e.notes, is_running := e.is_running }

/-- JSON row of one mapped entry. -/
def entryRow (v : EntryView) : List (String × Option JVal) :=
  [("id", some (JVal.num v.id)),
   ("project", some (JVal.str v.project)),
   ("task", some (JVal.str v.task)),
   ("hours", some (JVal.num v.hours)),
   ("notes", some (match v.notes with | some s => JVal.str s | none => JVal.null)),
   ("is_running", some (JVal.bool v.is_running))]

/-- The `get_todays_time` handler (part_002 lines 402-440): returns the
`from` and `to` query parameters of the issued request (both `formatDate` of
the clock) and the response envelope. The catch block (lines 429-439) formats
the failure with `formatHarvestError`, like every other tool. -/
def getTodaysTimeRun (now : Nat) (u : Upstream (List RawTimeEntry)) :
    String × String × Envelope :=
  let today := formatDate now
  match u with
  | .fail e =>
    (today, today,
      { text := "Error fetching today\x27s time: " ++ formatHarvestError (some e),
        isError := true })
  | .ok raw =>
    let entries := raw.map toEntryView
    let totalHours := entries.foldl (fun s e => s + e.hours) 0
    (today, today,
      { text :=
          "Today\x27s time entries (" ++ toString entries.length ++ " total, " ++
            toFixed2 totalHours ++ " hours):\n\n" ++ stringify2 (entries.map entryRow),
        isError := false })

/-- A created/patched time entry as the write-tool success paths dereference
it. -/
structure CreatedEntry where
  id : Int
  project : NamedRef
  task : NamedRef
  hours : ℚ
  spent_date : String
  notes : Option String
deriving DecidableEq, Repr

/-- Validated input of `log_time` (part_002 lines 343-349). -/
structure LogArgs where
  project_id : Int
  task_id : Int
  spent_date : Option String
  hours : ℚ
  notes : Option String
deriving DecidableEq, Repr

/-- The POST body of `log_time` (part_002 lines 357-363). -/
structure LogPayload where
  project_id : Int
  task_id : Int
  spent_date : String
  hours : ℚ
  notes : String
deriving DecidableEq, Repr

/-- Success text of `log_time` (part_002 lines 371-374). -/
def logSuccessText (e : CreatedEntry) : String :=
  "Successfully logged " ++ ratToJsString e.hours ++ " hours to " ++ e.project.name ++
    " - " ++ e.task.name ++ "\nDate: " ++ e.spent_date ++ "\nNotes: " ++
    jsOrDefault e.notes "No notes" ++ "\nEntry ID: " ++ toString e.id

/-- The `log_time` handler (part_002 lines 351-389): admission check first;
on rejection the catch turns the thrown error into an envelope and no request
is issued (`none`); on admission the POST payload is built (the date
defaulting to `formatDate` of the clock via `spent_date || ...`) and issued,
and the envelope reflects the upstream outcome. -/
def logTimeRun (now : Nat) (st : List Nat) (a : LogArgs) (u : Upstream CreatedEntry) :
    Envelope × List Nat × Option LogPayload :=
  match checkRateLimit now st with
  | (false, st') =>
    ({ text := "Error logging time: " ++ formatHarvestError (some rateLimitError),
       isError := true }, st', none)
  | (true, st') =>
    let dateToLog :=
      match a.spent_date with
      | some s => if s = "" then formatDate now else s
      | none => formatDate now
    let payload : LogPayload :=
      { project_id := a.project_id, task_id := a.task_id, spent_date := dateToLog,
        hours := a.hours, notes := jsOrDefault a.notes "" }
    match u with
    | .ok e => ({ text := logSuccessText e, isError := false }, st', some payload)
    | .fail e =>
      ({ text := "Error logging time: " ++ formatHarvestError (some e),
         isError := true }, st', some payload)

/-- Validated input of `start_timer` (part_002 lines 451-455). -/
structure StartArgs where
  project_id : Int
  task_id : Int
  notes : Option String
deriving DecidableEq, Repr

/-- The POST body of `start_timer` (part_002 lines 461-466): no `hours`. -/
structure StartPayload where
  project_id : Int
  task_id : Int
  spent_date : String
  notes : String
deriving DecidableEq, Repr

/-- Success text of `start_timer` (part_002 lines 474-476). -/
def startSuccessText (e : CreatedEntry) : String :=
  "Timer started for " ++ e.project.name ++ " - " ++ e.task.name ++ "\nEntry ID: " ++
    toString e.id ++ "\nNotes: " ++ jsOrDefault e.notes "No notes"

/-- The `start_timer` handler (part_002 lines 457-491). -/
def startTimerRun (now : Nat) (st : List Nat) (a : StartArgs) (u : Upstream CreatedEntry) :
    Envelope × List Nat × Option StartPayload :=
  match checkRateLimit now st with
  | (false, st') =>
    ({ text := "Error starting timer: " ++ formatHarvestError (some rateLimitError),
       isError := true }, st', none)
  | (true, st') =>
    let payload : StartPayload :=
      { project_id := a.project_id, task_id := a.task_id,
        spent_date := formatDate now, notes := jsOrDefault a.notes "" }
    match u with
    | .ok e => ({ text := startSuccessText e, isError := false }, st', some payload)
    | .fail e =>
      ({ text := "Error starting timer: " ++ formatHarvestError (some e),
         isError := true }, st', some payload)

/-- Success text of `stop_timer` (part_002 line 517). -/
def stopSuccessText (e : CreatedEntry) : String :=
  "Timer stopped. Logged " ++ ratToJsString e.hours ++ " hours to " ++ e.project.name ++
    " - " ++ e.task.name

/-- The `stop_timer` handler (part_002 lines 506-532): the issued request is
the PATCH path (no body). -/
def stopTimerRun (now : Nat) (st : List Nat) (timeEntryId : Int)
    (u : Upstream CreatedEntry) : Envelope × List Nat × Option String :=
  match checkRateLimit now st with
  | (false, st') =>
    ({ text := "Error stopping timer: " ++ formatHarvestError (some rateLimitError),
       isError := true }, st', none)
  | (true, st') =>
    let path := "/time_entries/" ++ toString timeEntryId ++ "/stop"
    match u with
    | .ok e => ({ text := stopSuccessText e, isError := false }, st', some path)
    | .fail e =>
      ({ text := "Error stopping timer: " ++ formatHarvestError (some e),
         isError := true }, st', some path)

/-- Validated input of `update_time_entry` (part_002 lines 543-550). -/
structure UpdateArgs where
  time_entry_id : Int
  project_id : Option Int
  task_id : Option Int
  spent_date : Option String
  hours : Option ℚ
  notes : Option String
deriving DecidableEq, Repr

/-- The `updateData` object of part_002 lines 557-562, as the ordered list of
own properties: a field is added exactly when the argument is not
`undefined`. -/
def buildUpdateData (pid tid : Option Int) (sd : Option String) (hrs : Option ℚ)
    (nts : Option String) : List (String × JVal) :=
  (match pid with | some v => [("project_id", JVal.num v)] | none => []) ++
  (match tid with | some v => [("task_id", JVal.num v)] | none => []) ++
  (match sd with | some v => [("spent_date", JVal.str v)] | none => []) ++
  (match hrs with | some v => [("hours", JVal.num v)] | none => []) ++
  (match nts with | some v => [("notes", JVal.str v)] | none => [])

/-- Success text of `update_time_entry` (part_002 lines 571-576). -/
def updateSuccessText (e : CreatedEntry) : String :=
  "Successfully updated time entry " ++ toString e.id ++ "\nProject: " ++
    e.project.name ++ "\nTask: " ++ e.task.name ++ "\nHours: " ++
    ratToJsString e.hours ++ "\nDate: " ++ e.spent_date ++ "\nNotes: " ++
    jsOrDefault e.notes "No notes"

/-- The `update_time_entry` handler (part_002 lines 552-591): the issued
request is the PATCH path plus the built payload, sent unconditionally once
admitted — an empty payload is still sent, never rejected locally. -/
def updateTimeEntryRun (now : Nat) (st : List Nat) (a : UpdateArgs)
    (u : Upstream CreatedEntry) :
    Envelope × List Nat × Option (String × List (String × JVal)) :=
  match checkRateLimit now st with
  | (false, st') =>
    ({ text := "Error updating time entry: " ++ formatHarvestError (some rateLimitError),
       isError := true }, st', none)
  | (true, st') =>
    let req := ("/time_entries/" ++ toString a.time_entry_id,
      buildUpdateData a.project_id a.task_id a.spent_date a.hours a.notes)
    match u with
    | .ok e => ({ text := updateSuccessText e, isError := false }, st', some req)
    | .fail e =>
      ({ text := "Error updating time entry: " ++ formatHarvestError (some e),
         isError := true }, st', some req)

/-- `s` occurs in `t` as a contiguous segment (substring on character
lists). -/
def SegIn (s t : List Char) : Prop := ∃ l r, t = l ++ s ++ r

/-- `s` is an initial run of `t`. -/
def leadsList : List Char → List Char → Bool
  | [], _ => true
  | _ :: _, [] => false
  | a :: s, b :: t => a == b && leadsList s t

/-- Decidable substring check on character lists. -/
def segInB (s : List Char) : List Char → Bool
  | [] => leadsList s []
  | b :: t => leadsList s (b :: t) || segInB s t

/-! ### String and substring infrastructure -/

theorem data_app (a b : String) : (a ++ b).data = a.data ++ b.data :=
  String.data_append a b

theorem string_eq_of_data {a b : String} (h : a.data = b.data) : a = b := by
  cases a; cases b; exact congrArg String.mk h

theorem segIn_nil {s : List Char} (h : SegIn s []) : s = [] := by
  obtain ⟨l, r, h⟩ := h
  have hl := congrArg List.length h
  simp [List.length_append] at hl
  have hs0 : s.length = 0 := by omega
  exact List.eq_nil_of_length_eq_zero hs0

theorem leadsList_iff (s t : List Char) : leadsList s t = true ↔ ∃ r, t = s ++ r := by
  induction s generalizing t with
  | nil => simp [leadsList]
  | cons a s ih =>
    cases t with
    | nil => simp [leadsList]
    | cons b t =>
      simp only [leadsList, Bool.and_eq_true, beq_iff_eq, ih]
      constructor
      · rintro ⟨rfl, r, rfl⟩
        exact ⟨r, rfl⟩
      · rintro ⟨r, h⟩
        rw [List.cons_append] at h
        injection h with h1 h2
        exact ⟨h1.symm, r, h2⟩

theorem segInB_iff (s t : List Char) : segInB s t = true ↔ SegIn s t := by
  induction t with
  | nil =>
    simp only [segInB, leadsList_iff]
    constructor
    · rintro ⟨r, h⟩
      exact ⟨[], r, by simpa using h⟩
    · rintro ⟨l, r, h⟩
      have hl := congrArg List.length h
      simp [List.length_append] at hl
      have hs0 : s.length = 0 := by omega
      have hr0 : r.length = 0 := by omega
      refine ⟨r, ?_⟩
      rw [List.eq_nil_of_length_eq_zero hs0, List.eq_nil_of_length_eq_zero hr0]
      rfl
  | cons b t ih =>
    simp only [segInB, Bool.or_eq_true, leadsList_iff, ih]
    constructor
    · rintro (⟨r, h⟩ | ⟨l, r, h⟩)
      · exact ⟨[], r, by simpa using h⟩
      · exact ⟨b :: l, r, by simp [h]⟩
    · rintro ⟨l, r, h⟩
      cases l with
      | nil => exact Or.inl ⟨r, by simpa using h⟩
      | cons c l =>
        right
        rw [List.cons_append, List.cons_append] at h
        injection h with h1 h2
        exact ⟨l, r, h2⟩

theorem not_segIn_of_b {s t : List Char} (h : segInB s t = false) : ¬ SegIn s t :=
  fun hs => Bool.eq_false_iff.mp h ((segInB_iff s t).mpr hs)

theorem segIn_of_b {s t : List Char} (h : segInB s t = true) : SegIn s t :=
  (segInB_iff s t).mp h

theorem segIn_split {s a b : List Char} (h : SegIn s (a ++ b)) :
    SegIn s a ∨ SegIn s b ∨
      ∃ s₁ s₂, s = s₁ ++ s₂ ∧ s₁ ≠ [] ∧ s₂ ≠ [] ∧
        (∃ l, a = l ++ s₁) ∧ ∃ r, b = s₂ ++ r := by
  obtain ⟨l, r, h⟩ := h
  rw [List.append_assoc] at h
  rcases List.append_eq_append_iff.mp h with ⟨x, hx1, hx2⟩ | ⟨y, hy1, hy2⟩
  · exact Or.inr (Or.inl ⟨x, r, by rw [hx2, List.append_assoc]⟩)
  · rcases List.append_eq_append_iff.mp hy2 with ⟨u, hu1, hu2⟩ | ⟨v, hv1, hv2⟩
    · exact Or.inl ⟨l, u, by rw [hy1, hu1, List.append_assoc]⟩
    · by_cases hy : y = []
      · subst hy
        simp only [List.nil_append] at hv1
        exact Or.inr (Or.inl ⟨[], r, by simp [hv2, hv1]⟩)
      · by_cases hv : v = []
        · subst hv
          rw [List.append_nil] at hv1
          exact Or.inl ⟨l, [], by rw [hy1, hv1, List.append_nil]⟩
        · exact Or.inr (Or.inr ⟨y, v, hv1, hy, hv, ⟨l, hy1⟩, ⟨r, hv2⟩⟩)

theorem segIn_mem {s t : List Char} (h : SegIn s t) : ∀ c ∈ s, c ∈ t := by
  obtain ⟨l, r, rfl⟩ := h
  intro c hc
  simp [hc]

theorem sepChars_eq : (" | " : String).data = [' ', '|', ' '] := rfl

theorem segIn_joinBar {secret : List Char} (hne : secret ≠ [])
    (hch : ∀ c ∈ secret, c ≠ ' ' ∧ c ≠ '|') :
    ∀ parts : List String, (∀ p ∈ parts, ¬ SegIn secret p.data) →
      ¬ SegIn secret (joinBar parts).data := by
  intro parts
  induction parts with
  | nil =>
    intro _ h
    rw [show (joinBar []).data = [] from rfl] at h
    exact hne (segIn_nil h)
  | cons p ps ih =>
    cases ps with
    | nil =>
      intro hparts h
      exact hparts p (by simp) h
    | cons q rest =>
      intro hparts h
      have hdata : (joinBar (p :: q :: rest)).data
          = p.data ++ ((" | " : String).data ++ (joinBar (q :: rest)).data) := by
        show ((p ++ " | ") ++ joinBar (q :: rest)).data = _
        rw [data_app, data_app, List.append_assoc]
      rw [hdata] at h
      obtain ⟨c0, hc0⟩ := List.exists_mem_of_ne_nil secret hne
      rcases segIn_split h with h1 | h2 | ⟨s₁, s₂, hs, hs1, hs2, _, ⟨r, hr⟩⟩
      · exact hparts p (by simp) h1
      · rcases segIn_split h2 with g1 | g2 | ⟨t₁, t₂, ht, ht1, ht2, ⟨l2, hl2⟩, _⟩
        · have hcmem := segIn_mem g1 c0 hc0
          rw [sepChars_eq] at hcmem
          rcases hch c0 hc0 with ⟨hsp, hbar⟩
          simp at hcmem
          rcases hcmem with h' | h' | h'
          · exact hsp h'
          · exact hbar h'
          · exact hsp h'
        · exact ih (fun x hx => hparts x (by simp [hx])) g2
        · obtain ⟨c, hc⟩ := List.exists_mem_of_ne_nil t₁ ht1
          have hcsec : c ∈ secret := by
            rw [ht]
            simp [hc]
          have hcsep : c ∈ (" | " : String).data := by
            rw [hl2]
            simp [hc]
          rcases hch c hcsec with ⟨hsp, hbar⟩
          rw [sepChars_eq] at hcsep
          simp at hcsep
          rcases hcsep with h' | h' | h'
          · exact hsp h'
          · exact hbar h'
          · exact hsp h'
      · cases s₂ with
        | nil => exact hs2 rfl
        | cons c cs =>
          have hcsec : c ∈ secret := by
            rw [hs]
            simp
          rw [sepChars_eq] at hr
          simp only [List.cons_append, List.nil_append] at hr
          injection hr with h1 _
          exact (hch c hcsec).1 h1.symm

/-! ### C3: the log-safe formatter uses only allow-listed fields -/

/-- C3: `sanitizeErrorForLogging` builds its output only from the allow-listed
fields. (1) Noninterference: any two failure values agreeing on the four
allow-listed fields — whatever else they carry, in particular the request
config / headers blob — sanitize to the same string. (2) For every input
(including null/undefined) and every secret of bearer-token / account-id
shape (non-empty, containing neither a space nor a pipe — the join-separator
characters) that does not occur in the rendered allow-listed parts nor in
the two fixed fallback literals, the secret does not occur in the output. -/
theorem sanitizeErrorForLogging_allowlisted :
    (∀ e₁ e₂ : JsError, e₁.message = e₂.message →
        statusOf (some e₁) = statusOf (some e₂) →
        dataMessageOf (some e₁) = dataMessageOf (some e₂) →
        e₁.code = e₂.code →
        sanitizeErrorForLogging (some e₁) = sanitizeErrorForLogging (some e₂)) ∧
    (∀ (e : Option JsError) (secret : String),
      secret.data ≠ [] →
      (∀ c ∈ secret.data, c ≠ ' ' ∧ c ≠ '|') →
      (∀ m, messageFieldOf e = some m → segInB secret.data m.data = false) →
      (∀ s, statusOf e = some s →
        segInB secret.data ("HTTP " ++ toString s).data = false) →
      (∀ m, dataMessageOf e = some m → segInB secret.data m.data = false) →
      (∀ c, codeOf e = some c →
        segInB secret.data ("code=" ++ c).data = false) →
      segInB secret.data ("Unknown error" : String).data = false →
      segInB secret.data ("[object Object]" : String).data = false →
      segInB secret.data (sanitizeErrorForLogging e).data = false) := by
  constructor
  · intro e₁ e₂ h1 h2 h3 h4
    have hp : sanitizeParts e₁ = sanitizeParts e₂ := by
      unfold sanitizeParts
      rw [h1, h2, h3, h4]
    simp only [sanitizeErrorForLogging, hp, jsStringOfError]
  · intro e secret hne hch hmsg hst hdm hcd hunk hobj
    refine Bool.eq_false_iff.mpr fun htrue => ?_
    have hseg := segIn_of_b htrue
    cases e with
    | none => exact not_segIn_of_b hunk hseg
    | some err =>
      have hseg' : SegIn secret.data
          (if sanitizeParts err = [] then jsStringOfError err
           else joinBar (sanitizeParts err)).data := hseg
      by_cases hp : sanitizeParts err = []
      · rw [if_pos hp] at hseg'
        exact not_segIn_of_b hobj hseg'
      · rw [if_neg hp] at hseg'
        refine segIn_joinBar hne hch (sanitizeParts err) ?_ hseg'
        intro x hx
        unfold sanitizeParts at hx
        simp only [List.mem_append] at hx
        rcases hx with ((hA | hB) | hC) | hD
        · rcases hm : err.message with _ | m
          · rw [hm] at hA
            simp at hA
          · rw [hm] at hA
            by_cases hz : m = ""
            · simp [hz] at hA
            · simp [hz] at hA
              subst hA
              exact not_segIn_of_b (hmsg _ hm)
        · rcases hs : statusOf (some err) with _ | s
          · rw [hs] at hB
            simp at hB
          · rw [hs] at hB
            by_cases hz : s = 0
            · simp [hz] at hB
            · simp [hz] at hB
              subst hB
              exact not_segIn_of_b (hst s hs)
        · rcases hd : dataMessageOf (some err) with _ | m
          · rw [hd] at hC
            simp at hC
          · rw [hd] at hC
            by_cases hz : m = ""
            · simp [hz] at hC
            · simp [hz] at hC
              subst hC
              exact not_segIn_of_b (hdm _ hd)
        · rcases hc : err.code with _ | c
          · rw [hc] at hD
            simp at hD
          · rw [hc] at hD
            by_cases hz : c = ""
            · simp [hz] at hD
            · simp [hz] at hD
              subst hD
              exact not_segIn_of_b (hcd c hc)

/-- Witness for C3 at a concrete axios-style failure that carries the bearer
token in its request config blob: the hypotheses hold by computation, the
sanitized output does not contain the token, and yet the token does occur in
the error object itself. -/
theorem sanitizeErrorForLogging_allowlisted_witness :
    segInB ("SECRET-TOKEN-123" : String).data
      (sanitizeErrorForLogging (some
        { message := some "Request failed with status code 401"
          response := some ⟨some 401, some ⟨some "invalid token", none⟩⟩
          code := some "ERR_BAD_REQUEST"
          cfg := "Authorization: Bearer SECRET-TOKEN-123" })).data = false ∧
    segInB ("SECRET-TOKEN-123" : String).data
      ("Authorization: Bearer SECRET-TOKEN-123" : String).data = true := by
  constructor
  · refine sanitizeErrorForLogging_allowlisted.2 _ "SECRET-TOKEN-123"
      (by decide) (by decide) ?_ ?_ ?_ ?_ (by decide) (by decide)
    · intro m hm
      obtain rfl :=
        Option.some.inj (show some "Request failed with status code 401" = some m from hm)
      decide
    · intro s hs
      obtain rfl := Option.some.inj (show some 401 = some s from hs)
      decide
    · intro m hm
      obtain rfl := Option.some.inj (show some "invalid token" = some m from hm)
      decide
    · intro c hc
      obtain rfl := Option.some.inj (show some "ERR_BAD_REQUEST" = some c from hc)
      decide
  · decide

/-! ### C4: the user-facing formatter -/

/-- C4: `formatHarvestError` is total on arbitrary failure values (a Lean
function, as the source function never throws); when the HTTP status is
exactly 403 the result is the status-prefixed message followed by the fixed
remediation hint about /users/me/* endpoints and account-id verification;
otherwise it is "Harvest API error (<status>): <message>", with the
parenthesized status omitted when no status is present; the message is the
upstream body `message`, else the body `error` field, else the transport
error `message`, else "Unknown error" (JS truthiness: empty strings are
skipped like absent ones). -/
theorem formatHarvestError_spec (e : Option JsError) :
    (statusOf e = some 403 →
      formatHarvestError e =
        "Harvest API error (403): " ++ harvestMessageOf e ++ permissionHint ∧
      ∃ pre, formatHarvestError e = pre ++ permissionHint) ∧
    (∀ s, statusOf e = some s → s ≠ 403 → s ≠ 0 →
      formatHarvestError e =
        "Harvest API error" ++ " (" ++ toString s ++ ")" ++ ": " ++ harvestMessageOf e) ∧
    (statusOf e = none →
      formatHarvestError e = "Harvest API error: " ++ harvestMessageOf e) ∧
    (∀ m, dataMessageOf e = some m → m ≠ "" → harvestMessageOf e = m) ∧
    ((dataMessageOf e = none ∨ dataMessageOf e = some "") →
      ∀ m, dataErrorOf e = some m → m ≠ "" → harvestMessageOf e = m) ∧
    ((dataMessageOf e = none ∨ dataMessageOf e = some "") →
      (dataErrorOf e = none ∨ dataErrorOf e = some "") →
      ∀ m, messageFieldOf e = some m → m ≠ "" → harvestMessageOf e = m) ∧
    ((dataMessageOf e = none ∨ dataMessageOf e = some "") →
      (dataErrorOf e = none ∨ dataErrorOf e = some "") →
      (messageFieldOf e = none ∨ messageFieldOf e = some "") →
      harvestMessageOf e = "Unknown error") := by
  refine ⟨?_, ?_, ?_, ?_, ?_, ?_, ?_⟩
  · intro h
    refine ⟨by simp [formatHarvestError, h], ?_⟩
    exact ⟨"Harvest API error (403): " ++ harvestMessageOf e, by simp [formatHarvestError, h]⟩
  · intro s h h403 h0
    simp only [formatHarvestError, h]
    rw [if_neg (by simpa using h403), if_neg h0]
    apply string_eq_of_data
    simp [data_app, List.append_assoc]
  · intro h
    simp only [formatHarvestError, h]
    rw [if_neg (by simp)]
    rw [show ("Harvest API error" ++ "" ++ ": " : String) = "Harvest API error: " from rfl]
  · intro m hm hne
    simp [harvestMessageOf, jsOrDefault, jsOrStr, hm, hne]
  · intro hdm m hde hne
    rcases hdm with h | h <;>
      simp [harvestMessageOf, jsOrDefault, jsOrStr, h, hde, hne]
  · intro hdm hde m hmf hne
    rcases hdm with h | h <;> rcases hde with h' | h' <;>
      simp [harvestMessageOf, jsOrDefault, jsOrStr, h, h', hmf, hne]
  · intro hdm hde hmf
    rcases hdm with h | h <;> rcases hde with h' | h' <;> rcases hmf with h'' | h'' <;>
      simp [harvestMessageOf, jsOrDefault, jsOrStr, h, h', h'']

set_option maxRecDepth 4000 in
/-- Witness for C4 at a concrete 403 failure: the status hypothesis holds by
computation and the formatted message carries the fixed remediation hint. -/
theorem formatHarvestError_spec_witness :
    statusOf (some (⟨some "Forbidden", some ⟨some 403, none⟩, none, ""⟩ : JsError)) =
      some 403 ∧
    formatHarvestError
        (some (⟨some "Forbidden", some ⟨some 403, none⟩, none, ""⟩ : JsError)) =
      "Harvest API error (403): Forbidden" ++ permissionHint := by
  refine ⟨rfl, ?_⟩
  have h := (formatHarvestError_spec
    (some (⟨some "Forbidden", some ⟨some 403, none⟩, none, ""⟩ : JsError))).1 rfl
  rw [h.1]
  decide

/-! ### Rate limiter lemmas -/

theorem checkRateLimit_admits {now : Nat} {st : List Nat}
    (h : (pruneTimestamps now st).length < RATE_LIMIT_MAX_WRITES) :
    checkRateLimit now st = (true, pruneTimestamps now st ++ [now]) := by
  simp [checkRateLimit, Nat.not_le.mpr h]

theorem checkRateLimit_reject {now : Nat} {st : List Nat}
    (h : RATE_LIMIT_MAX_WRITES ≤ (pruneTimestamps now st).length) :
    checkRateLimit now st = (false, pruneTimestamps now st) := by
  simp [checkRateLimit, h]

theorem checkRateLimit_cases (now : Nat) (st : List Nat) :
    ((checkRateLimit now st).1 = true ∧
      checkRateLimit now st = (true, pruneTimestamps now st ++ [now])) ∨
    ((checkRateLimit now st).1 = false ∧
      checkRateLimit now st = (false, pruneTimestamps now st)) := by
  by_cases h : RATE_LIMIT_MAX_WRITES ≤ (pruneTimestamps now st).length
  · exact Or.inr ⟨by rw [checkRateLimit_reject h], checkRateLimit_reject h⟩
  · exact Or.inl ⟨by rw [checkRateLimit_admits (Nat.not_le.mp h)],
      checkRateLimit_admits (Nat.not_le.mp h)⟩

theorem runWrites_append (xs ys : List Nat) (st : List Nat) :
    runWrites (xs ++ ys) st =
      ((runWrites xs st).1 ++ (runWrites ys (runWrites xs st).2).1,
        (runWrites ys (runWrites xs st).2).2) := by
  induction xs generalizing st with
  | nil => simp [runWrites]
  | cons t rest ih => simp [runWrites, ih]

theorem runWrites_results_true : ∀ (times st : List Nat),
    st.length + times.length ≤ RATE_LIMIT_MAX_WRITES →
    (runWrites times st).1 = List.replicate times.length true ∧
    (runWrites times st).2.length ≤ st.length + times.length := by
  intro times
  induction times with
  | nil =>
    intro st _
    simp [runWrites]
  | cons t rest ih =>
    intro st hlen
    have hmax : RATE_LIMIT_MAX_WRITES = 30 := rfl
    have hpl : (pruneTimestamps t st).length ≤ st.length := List.length_filter_le _ _
    have hlen' : st.length + rest.length + 1 ≤ 30 := by
      rw [hmax] at hlen
      simp at hlen
      omega
    have hadm : checkRateLimit t st = (true, pruneTimestamps t st ++ [t]) := by
      refine checkRateLimit_admits ?_
      rw [hmax]
      omega
    obtain ⟨h1, h2⟩ := ih (pruneTimestamps t st ++ [t]) (by
      rw [hmax]
      simp
      omega)
    simp only [runWrites, hadm]
    refine ⟨by simp [h1, List.replicate_succ], ?_⟩
    simp at h2 ⊢
    omega

theorem runWrites_all_admitted : ∀ (times st : List Nat),
    st.length + times.length ≤ RATE_LIMIT_MAX_WRITES →
    (∀ t ∈ times, ∀ s ∈ st, t - s < RATE_LIMIT_WINDOW_MS) →
    times.Pairwise (fun a b => b - a < RATE_LIMIT_WINDOW_MS) →
    runWrites times st = (List.replicate times.length true, st ++ times) := by
  intro times
  induction times with
  | nil =>
    intro st _ _ _
    simp [runWrites]
  | cons t rest ih =>
    intro st hlen hwin hpair
    have hmax : RATE_LIMIT_MAX_WRITES = 30 := rfl
    have hlen' : st.length + rest.length + 1 ≤ 30 := by
      rw [hmax] at hlen
      simp at hlen
      omega
    have hkeep : pruneTimestamps t st = st :=
      List.filter_eq_self.mpr fun s hs => by
        simp only [decide_eq_true_eq]
        exact hwin t (by simp) s hs
    have hadm : checkRateLimit t st = (true, st ++ [t]) := by
      rw [checkRateLimit_admits (by
        rw [hkeep, hmax]
        omega), hkeep]
    obtain ⟨hp1, hp2⟩ := List.pairwise_cons.mp hpair
    have hrest := ih (st ++ [t]) (by
        rw [hmax]
        simp
        omega)
      (by
        intro u hu s hs
        rcases List.mem_append.mp hs with h | h
        · exact hwin u (by simp [hu]) s h
        · rw [List.mem_singleton.mp h]
          exact hp1 u hu)
      hp2
    simp only [runWrites, hadm, hrest]
    simp [List.replicate_succ, List.append_assoc]

/-! ### C1: the sliding-window write throttle -/

/-- C1: with ceiling 30 and window 60000 ms, starting from an empty throttle:
any sequence of at most 30 write attempts is admitted entirely (in
particular 30 writes within less than the window); for 31 monotone attempt
times spanning less than the window, the first 30 are admitted and the 31st
is rejected, leaving exactly the 30 admitted timestamps recorded; once the
window has fully elapsed past the earliest recorded timestamp, the next
attempt is admitted again; and a rejected attempt produces the throttling
error envelope without issuing any upstream request. -/
theorem rateLimiter_sliding_window (ts : Fin 31 → Nat)
    (mono : ∀ i j : Fin 31, i ≤ j → ts i ≤ ts j)
    (span : ts 30 - ts 0 < RATE_LIMIT_WINDOW_MS) :
    (∀ times : List Nat, times.length ≤ RATE_LIMIT_MAX_WRITES →
      (runWrites times []).1 = List.replicate times.length true) ∧
    (runWrites (List.ofFn ts) []).1 = List.replicate 30 true ++ [false] ∧
    (runWrites (List.ofFn ts) []).2 = List.ofFn (fun i : Fin 30 => ts i.castSucc) ∧
    (∀ t : Nat, ts 0 + RATE_LIMIT_WINDOW_MS ≤ t →
      (checkRateLimit t (runWrites (List.ofFn ts) []).2).1 = true) ∧
    (∀ (now : Nat) (st : List Nat) (a : LogArgs) (u : Upstream CreatedEntry),
      (checkRateLimit now st).1 = false →
      (logTimeRun now st a u).2.2 = none ∧
      (logTimeRun now st a u).1 =
        { text := "Error logging time: " ++ formatHarvestError (some rateLimitError),
          isError := true }) := by
  have hW : RATE_LIMIT_WINDOW_MS = 60000 := rfl
  have hsplit : List.ofFn ts =
      (List.ofFn (fun i : Fin 30 => ts i.castSucc)) ++ [ts (Fin.last 30)] := by
    rw [List.ofFn_succ']
    simp [List.concat_eq_append]
  have hlast : ts (Fin.last 30) = ts 30 := rfl
  have hmono0 : ∀ i : Fin 30, ts 0 ≤ ts i.castSucc := fun i =>
    mono 0 i.castSucc (Fin.zero_le _)
  have hmono30 : ∀ i : Fin 30, ts i.castSucc ≤ ts 30 := fun i =>
    mono i.castSucc 30 (le_of_lt (Fin.castSucc_lt_last i))
  have hfirst : runWrites (List.ofFn (fun i : Fin 30 => ts i.castSucc)) [] =
      (List.replicate 30 true, List.ofFn (fun i : Fin 30 => ts i.castSucc)) := by
    have h := runWrites_all_admitted (List.ofFn (fun i : Fin 30 => ts i.castSucc)) []
      (by simp [RATE_LIMIT_MAX_WRITES])
      (by simp)
      (by
        rw [List.pairwise_ofFn]
        intro i j _
        calc ts j.castSucc - ts i.castSucc ≤ ts 30 - ts 0 :=
              tsub_le_tsub (hmono30 j) (hmono0 i)
          _ < RATE_LIMIT_WINDOW_MS := span)
    simpa using h
  have hkeep31 : pruneTimestamps (ts 30) (List.ofFn (fun i : Fin 30 => ts i.castSucc)) =
      List.ofFn (fun i : Fin 30 => ts i.castSucc) := by
    refine List.filter_eq_self.mpr fun s hs => ?_
    obtain ⟨i, rfl⟩ := (List.mem_ofFn _ _).mp hs
    simp only [decide_eq_true_eq]
    calc ts 30 - ts i.castSucc ≤ ts 30 - ts 0 := tsub_le_tsub_left (hmono0 i) _
      _ < RATE_LIMIT_WINDOW_MS := span
  have hrej : checkRateLimit (ts 30) (List.ofFn (fun i : Fin 30 => ts i.castSucc)) =
      (false, List.ofFn (fun i : Fin 30 => ts i.castSucc)) := by
    have h : RATE_LIMIT_MAX_WRITES ≤
        (pruneTimestamps (ts 30) (List.ofFn (fun i : Fin 30 => ts i.castSucc))).length := by
      rw [hkeep31]
      simp [RATE_LIMIT_MAX_WRITES]
    rw [checkRateLimit_reject h, hkeep31]
  have hrun : runWrites (List.ofFn ts) [] =
      (List.replicate 30 true ++ [false], List.ofFn (fun i : Fin 30 => ts i.castSucc)) := by
    rw [hsplit, runWrites_append, hfirst]
    simp only [hlast, runWrites, hrej]
  refine ⟨?_, by rw [hrun], by rw [hrun], ?_, ?_⟩
  · intro times hlen
    exact (runWrites_results_true times [] (by simpa using hlen)).1
  · intro t ht
    rw [hrun]
    have h0 : ((0 : Fin 30).castSucc : Fin 31) = 0 := rfl
    have hdrop : pruneTimestamps t (List.ofFn (fun i : Fin 30 => ts i.castSucc)) =
        pruneTimestamps t (List.ofFn (fun i : Fin 29 => ts (i.succ).castSucc)) := by
      rw [List.ofFn_succ]
      unfold pruneTimestamps
      rw [List.filter_cons]
      have hge : RATE_LIMIT_WINDOW_MS ≤ t - ts 0 := by
        rw [hW] at ht ⊢
        omega
      simp [h0, hge]
    have hle : (pruneTimestamps t (List.ofFn (fun i : Fin 30 => ts i.castSucc))).length
        < RATE_LIMIT_MAX_WRITES := by
      rw [hdrop]
      have := List.length_filter_le
        (fun s => decide (t - s < RATE_LIMIT_WINDOW_MS))
        (List.ofFn (fun i : Fin 29 => ts (i.succ).castSucc))
      simp only [List.length_ofFn] at this
      simp [RATE_LIMIT_MAX_WRITES, pruneTimestamps]
      exact lt_of_le_of_lt this (by omega)
    rw [checkRateLimit_admits hle]
  · intro now st a u h
    rcases checkRateLimit_cases now st with ⟨h1, _⟩ | ⟨_, heq⟩
    · rw [h1] at h
      cases h
    · cases u <;> simp [logTimeRun, heq]

/-- Witness for C1: 31 attempts at one-second intervals (all inside one
minute) — the hypotheses hold by computation and the run admits the first 30
and rejects the 31st. -/
theorem rateLimiter_sliding_window_witness :
    (runWrites (List.ofFn (fun i : Fin 31 => (i : Nat) * 1000)) []).1 =
      List.replicate 30 true ++ [false] :=
  (rateLimiter_sliding_window (fun i : Fin 31 => (i : Nat) * 1000)
    (fun i j hij => Nat.mul_le_mul_right 1000 hij)
    (by decide)).2.1

/-! ### C10: admitted writes are recorded before the upstream call -/

/-- C10: for every mutating tool and every clock/state: when the throttle
admits, the attempt timestamp is appended to the pruned state and the
upstream request is issued — and the resulting state is the same whether the
upstream call later succeeds or fails (the recorded timestamp is never
rolled back, so admitted-but-failed writes consume budget exactly like
successful ones); when the throttle rejects, no request is issued and the
state is only pruned (nothing is recorded). -/
theorem throttle_records_admission_only (now : Nat) (st : List Nat) :
    ((checkRateLimit now st).1 = true →
      (∀ (a : LogArgs) (u : Upstream CreatedEntry),
        (logTimeRun now st a u).2.1 = pruneTimestamps now st ++ [now] ∧
        (logTimeRun now st a u).2.2.isSome = true) ∧
      (∀ (a : StartArgs) (u : Upstream CreatedEntry),
        (startTimerRun now st a u).2.1 = pruneTimestamps now st ++ [now] ∧
        (startTimerRun now st a u).2.2.isSome = true) ∧
      (∀ (i : Int) (u : Upstream CreatedEntry),
        (stopTimerRun now st i u).2.1 = pruneTimestamps now st ++ [now] ∧
        (stopTimerRun now st i u).2.2.isSome = true) ∧
      (∀ (a : UpdateArgs) (u : Upstream CreatedEntry),
        (updateTimeEntryRun now st a u).2.1 = pruneTimestamps now st ++ [now] ∧
        (updateTimeEntryRun now st a u).2.2.isSome = true)) ∧
    ((checkRateLimit now st).1 = false →
      (∀ (a : LogArgs) (u : Upstream CreatedEntry),
        (logTimeRun now st a u).2.1 = pruneTimestamps now st ∧
        (logTimeRun now st a u).2.2 = none) ∧
      (∀ (a : StartArgs) (u : Upstream CreatedEntry),
        (startTimerRun now st a u).2.1 = pruneTimestamps now st ∧
        (startTimerRun now st a u).2.2 = none) ∧
      (∀ (i : Int) (u : Upstream CreatedEntry),
        (stopTimerRun now st i u).2.1 = pruneTimestamps now st ∧
        (stopTimerRun now st i u).2.2 = none) ∧
      (∀ (a : UpdateArgs) (u : Upstream CreatedEntry),
        (updateTimeEntryRun now st a u).2.1 = pruneTimestamps now st ∧
        (updateTimeEntryRun now st a u).2.2 = none)) := by
  rcases checkRateLimit_cases now st with ⟨h1, heq⟩ | ⟨h1, heq⟩
  · constructor
    · intro _
      refine ⟨fun a u => ?_, fun a u => ?_, fun i u => ?_, fun a u => ?_⟩ <;>
        cases u <;> simp [logTimeRun, startTimerRun, stopTimerRun, updateTimeEntryRun, heq]
    · intro h
      rw [h1] at h
      cases h
  · constructor
    · intro h
      rw [h1] at h
      cases h
    · intro _
      refine ⟨fun a u => ?_, fun a u => ?_, fun i u => ?_, fun a u => ?_⟩ <;>
        cases u <;> simp [logTimeRun, startTimerRun, stopTimerRun, updateTimeEntryRun, heq]

/-- Witness for C10: a concrete admitted `log_time` call whose upstream POST
fails — the timestamp is recorded anyway and the request was issued. -/
theorem throttle_records_admission_only_witness :
    (logTimeRun 5 [] ⟨7, 8, none, 1, none⟩ (.fail rateLimitError)).2.1 =
      pruneTimestamps 5 [] ++ [5] ∧
    (logTimeRun 5 [] ⟨7, 8, none, 1, none⟩ (.fail rateLimitError)).2.2.isSome = true :=
  ((throttle_records_admission_only 5 []).1 (by decide)).1
    ⟨7, 8, none, 1, none⟩ (.fail rateLimitError)

/-! ### C2: the pagination aggregator -/

theorem getAssignmentsLoop_chain {α : Type} (server : Nat → PageResp α) :
    ∀ (chain : List Nat) (fuel start : Nat) (acc : List α),
      nextChainOk server chain = true →
      chain.head? = some start →
      chain.length ≤ fuel →
      getAssignmentsLoop server fuel start acc =
        some (acc ++ (chain.map fun p => (server p).project_assignments.getD []).flatten) := by
  intro chain
  induction chain with
  | nil =>
    intro fuel start acc h _ _
    simp [nextChainOk] at h
  | cons p rest ih =>
    intro fuel start acc hok hhead hlen
    have hs : p = start := by simpa using hhead
    subst hs
    cases fuel with
    | zero => simp at hlen
    | succ fuel =>
      cases rest with
      | nil =>
        have hnp : (server p).next_page = none := by simpa [nextChainOk] using hok
        simp [getAssignmentsLoop, hnp]
      | cons q rest' =>
        simp only [nextChainOk, Bool.and_eq_true, decide_eq_true_eq, bne_iff_ne,
          ne_eq] at hok
        obtain ⟨⟨h1, h2⟩, h3⟩ := hok
        simp only [getAssignmentsLoop, h1]
        rw [if_neg h2]
        rw [ih fuel q (acc ++ (server p).project_assignments.getD []) h3 (by simp)
          (by simpa using Nat.le_of_succ_le_succ hlen)]
        simp [List.append_assoc]

/-- C2: for every server-side pagination chain (a sequence of pages each
indicating the next page number, the last indicating none) that starts at
page 1, `getMyProjectAssignments` follows exactly that chain and returns the
concatenation of every visited page's `project_assignments` array (absent
arrays read as empty, as in the source `|| []`): server-provided order is
preserved and the result length is the total count across pages, for every
chain length k. The fuel bound only says the unbounded `while (true)` loop
finishes within k iterations. -/
theorem pagination_concats_all_pages {α : Type} (server : Nat → PageResp α)
    (chain : List Nat) (fuel : Nat)
    (hchain : nextChainOk server chain = true)
    (hstart : chain.head? = some 1)
    (hfuel : chain.length ≤ fuel) :
    getMyProjectAssignments server fuel =
      some (chain.map fun p => (server p).project_assignments.getD []).flatten ∧
    ((chain.map fun p => (server p).project_assignments.getD []).flatten).length =
      (chain.map fun p => ((server p).project_assignments.getD []).length).sum := by
  constructor
  · have h := getAssignmentsLoop_chain server chain fuel 1 [] hchain hstart hfuel
    simpa [getMyProjectAssignments] using h
  · rw [List.length_flatten, List.map_map]
    rfl

/-- Witness for C2 on a concrete 3-page response (pages of sizes 2, 1, 2):
the chain hypotheses hold by computation and the aggregate is the ordered
concatenation of the three pages. -/
theorem pagination_concats_all_pages_witness :
    nextChainOk
        (fun p => if p = 1 then ⟨some [10, 11], some 2⟩
          else if p = 2 then ⟨some [12], some 3⟩
          else if p = 3 then ⟨some [13, 14], none⟩
          else (⟨none, none⟩ : PageResp Nat)) [1, 2, 3] = true ∧
    getMyProjectAssignments
        (fun p => if p = 1 then ⟨some [10, 11], some 2⟩
          else if p = 2 then ⟨some [12], some 3⟩
          else if p = 3 then ⟨some [13, 14], none⟩
          else (⟨none, none⟩ : PageResp Nat)) 3 = some [10, 11, 12, 13, 14] := by
  refine ⟨by decide, ?_⟩
  have h := (pagination_concats_all_pages
    (fun p => if p = 1 then ⟨some [10, 11], some 2⟩
      else if p = 2 then ⟨some [12], some 3⟩
      else if p = 3 then ⟨some [13, 14], none⟩
      else (⟨none, none⟩ : PageResp Nat)) [1, 2, 3] 3 (by decide) (by decide)
    (by decide)).1
  rw [h]
  decide

/-! ### C5: the update payload carries exactly the supplied fields -/

/-- C5: the PATCH payload built by `update_time_entry` contains exactly the
optional fields the caller supplied, with their values, and no others: each
of the five keys is present iff the corresponding argument was supplied (so
absent fields never appear, with empty/null or any other value); the
payload length is the number of supplied fields; only hours gives the
one-field payload, nothing gives the empty payload; and once the throttle
admits, the PATCH request is sent with that payload even when it is empty. -/
theorem updatePayload_exactly_supplied (pid tid : Option Int) (sd : Option String)
    (hrs : Option ℚ) (nts : Option String) :
    (∀ v, ("project_id", v) ∈ buildUpdateData pid tid sd hrs nts ↔
      ∃ x, pid = some x ∧ v = JVal.num x) ∧
    (∀ v, ("task_id", v) ∈ buildUpdateData pid tid sd hrs nts ↔
      ∃ x, tid = some x ∧ v = JVal.num x) ∧
    (∀ v, ("spent_date", v) ∈ buildUpdateData pid tid sd hrs nts ↔
      ∃ x, sd = some x ∧ v = JVal.str x) ∧
    (∀ v, ("hours", v) ∈ buildUpdateData pid tid sd hrs nts ↔
      ∃ x, hrs = some x ∧ v = JVal.num x) ∧
    (∀ v, ("notes", v) ∈ buildUpdateData pid tid sd hrs nts ↔
      ∃ x, nts = some x ∧ v = JVal.str x) ∧
    (∀ k v, (k, v) ∈ buildUpdateData pid tid sd hrs nts →
      k = "project_id" ∨ k = "task_id" ∨ k = "spent_date" ∨ k = "hours" ∨ k = "notes") ∧
    (buildUpdateData pid tid sd hrs nts).length =
      (if pid.isSome then 1 else 0) + (if tid.isSome then 1 else 0) +
        (if sd.isSome then 1 else 0) + (if hrs.isSome then 1 else 0) +
        (if nts.isSome then 1 else 0) ∧
    (∀ h : ℚ, buildUpdateData none none none (some h) none = [("hours", JVal.num h)]) ∧
    buildUpdateData none none none none none = [] ∧
    (∀ (now : Nat) (st : List Nat) (eid : Int) (u : Upstream CreatedEntry),
      (checkRateLimit now st).1 = true →
      (updateTimeEntryRun now st ⟨eid, pid, tid, sd, hrs, nts⟩ u).2.2 =
        some ("/time_entries/" ++ toString eid, buildUpdateData pid tid sd hrs nts)) := by
  refine ⟨?_, ?_, ?_, ?_, ?_, ?_, ?_, ?_, rfl, ?_⟩
  · intro v
    cases pid <;> cases tid <;> cases sd <;> cases hrs <;> cases nts <;>
      simp [buildUpdateData]
  · intro v
    cases pid <;> cases tid <;> cases sd <;> cases hrs <;> cases nts <;>
      simp [buildUpdateData]
  · intro v
    cases pid <;> cases tid <;> cases sd <;> cases hrs <;> cases nts <;>
      simp [buildUpdateData]
  · intro v
    cases pid <;> cases tid <;> cases sd <;> cases hrs <;> cases nts <;>
      simp [buildUpdateData]
  · intro v
    cases pid <;> cases tid <;> cases sd <;> cases hrs <;> cases nts <;>
      simp [buildUpdateData]
  · intro k v hkv
    cases pid <;> cases tid <;> cases sd <;> cases hrs <;> cases nts <;>
      simp [buildUpdateData] at hkv <;> tauto
  · cases pid <;> cases tid <;> cases sd <;> cases hrs <;> cases nts <;>
      simp [buildUpdateData]
  · intro h
    simp [buildUpdateData]
  · intro now st eid u hadm
    rcases checkRateLimit_cases now st with ⟨_, heq⟩ | ⟨h1, _⟩
    · cases u <;> simp [updateTimeEntryRun, heq]
    · rw [h1] at hadm
      cases hadm

/-- Witness for C5: supplying only `hours = 2` yields the one-field payload,
and an admitted call sends exactly that payload. -/
theorem updatePayload_exactly_supplied_witness :
    buildUpdateData none none none (some 2) none = [("hours", JVal.num 2)] ∧
    (updateTimeEntryRun 0 [] ⟨5, none, none, none, some 2, none⟩
        (.ok ⟨9, ⟨1, "P"⟩, ⟨2, "T"⟩, 2, "2025-01-01", none⟩)).2.2 =
      some ("/time_entries/" ++ toString (5 : Int),
        buildUpdateData none none none (some 2) none) := by
  have h := updatePayload_exactly_supplied none none none (some 2) none
  exact ⟨h.2.2.2.2.2.2.2.1 2,
    h.2.2.2.2.2.2.2.2.2 0 [] 5 (.ok ⟨9, ⟨1, "P"⟩, ⟨2, "T"⟩, 2, "2025-01-01", none⟩)
      (by decide)⟩

/-! ### C6: get_todays_time failure text -/

/-- C6 (counterexample to the claim as stated): at a concrete upstream
failure (transport message "socket hang up", HTTP 500, code ECONNRESET), the
`get_todays_time` catch block emits the sanitized status-aware formatter
output — not the raw underlying message, neither bare nor behind the
handler prefix. -/
theorem getTodaysTime_error_raw_counterexample :
    (getTodaysTimeRun 0 (.fail ⟨some "socket hang up", some ⟨some 500, none⟩,
        some "ECONNRESET", ""⟩)).2.2.text =
      "Error fetching today\x27s time: " ++
        formatHarvestError (some ⟨some "socket hang up", some ⟨some 500, none⟩,
          some "ECONNRESET", ""⟩) ∧
    (getTodaysTimeRun 0 (.fail ⟨some "socket hang up", some ⟨some 500, none⟩,
        some "ECONNRESET", ""⟩)).2.2.text =
      "Error fetching today\x27s time: Harvest API error (500): socket hang up" ∧
    (getTodaysTimeRun 0 (.fail ⟨some "socket hang up", some ⟨some 500, none⟩,
        some "ECONNRESET", ""⟩)).2.2.text ≠
      "Error fetching today\x27s time: socket hang up" ∧
    (getTodaysTimeRun 0 (.fail ⟨some "socket hang up", some ⟨some 500, none⟩,
        some "ECONNRESET", ""⟩)).2.2.text ≠ "socket hang up" :=
  ⟨rfl, by decide, by decide, by decide⟩

/-- C6 (amended): when `get_todays_time`'s upstream call fails, the envelope
is error-flagged and its text is the same sanitized status-aware
`formatHarvestError` output the other tools use (behind this tool's
"Error fetching today's time: " prefix) — shown side by side with the
`log_time` catch, which applies the identical formatter to the identical
failure. -/
theorem getTodaysTime_error_uses_formatter (now : Nat) (e : JsError) :
    (getTodaysTimeRun now (.fail e)).2.2 =
      { text := "Error fetching today\x27s time: " ++ formatHarvestError (some e),
        isError := true } ∧
    (∀ (st : List Nat) (a : LogArgs), (checkRateLimit now st).1 = true →
      (logTimeRun now st a (.fail e)).1 =
        { text := "Error logging time: " ++ formatHarvestError (some e),
          isError := true }) := by
  refine ⟨rfl, ?_⟩
  intro st a hadm
  rcases checkRateLimit_cases now st with ⟨_, heq⟩ | ⟨h1, _⟩
  · simp [logTimeRun, heq]
  · rw [h1] at hadm
    cases hadm

/-- Witness for the amended C6 at a concrete failure and an admitted
log_time call. -/
theorem getTodaysTime_error_uses_formatter_witness :
    (getTodaysTimeRun 0 (.fail ⟨some "boom", none, none, ""⟩)).2.2 =
      { text := "Error fetching today\x27s time: " ++
          formatHarvestError (some ⟨some "boom", none, none, ""⟩),
        isError := true } ∧
    (logTimeRun 0 [] ⟨1, 2, none, 1, none⟩ (.fail ⟨some "boom", none, none, ""⟩)).1 =
      { text := "Error logging time: " ++
          formatHarvestError (some ⟨some "boom", none, none, ""⟩),
        isError := true } :=
  ⟨(getTodaysTime_error_uses_formatter 0 ⟨some "boom", none, none, ""⟩).1,
    (getTodaysTime_error_uses_formatter 0 ⟨some "boom", none, none, ""⟩).2 [] ⟨1, 2, none, 1, none⟩
      (by decide)⟩

/-! ### C7: list_project_tasks with no matching assignment -/

/-- C7: whenever no fetched assignment's embedded project has the requested
id (the handler's strict `pa.project?.id === project_id` test fails on every
element), `list_project_tasks` issues no further upstream call and returns an
error-flagged envelope whose text is the explanatory not-found message with
the remediation hint — a total function, no exception escapes. -/
theorem listProjectTasks_no_assignment (pas : List ProjectAssignment) (pid : Int)
    (h : ∀ pa ∈ pas, pa.project.bind ProjectRef.id ≠ some pid) :
    (listProjectTasksRun pas pid).1 =
      { text := noAssignmentMessage pid, isError := true } ∧
    (listProjectTasksRun pas pid).2 = 0 ∧
    (listProjectTasksRun pas pid).1.text =
      "No project assignment found for project_id " ++ toString pid ++
        ". If this project exists but isn\x27t listed, you may not be assigned to it in Harvest." := by
  have hfind : findAssignment pas pid = none := by
    rw [findAssignment, List.find?_eq_none]
    intro pa hpa
    simpa using h pa hpa
  refine ⟨?_, ?_, ?_⟩ <;> simp [listProjectTasksRun, hfind, noAssignmentMessage]

/-- Witness for C7: one fetched assignment for project 5, requested
project_id 999 — the hypothesis holds by computation and the envelope is the
not-found error. -/
theorem listProjectTasks_no_assignment_witness :
    (listProjectTasksRun [⟨some ⟨some 5, some "Proj"⟩, none⟩] 999).1 =
      { text := noAssignmentMessage 999, isError := true } ∧
    (listProjectTasksRun [⟨some ⟨some 5, some "Proj"⟩, none⟩] 999).1.text =
      "No project assignment found for project_id 999. If this project exists but isn\x27t listed, you may not be assigned to it in Harvest." := by
  have h := listProjectTasks_no_assignment [⟨some ⟨some 5, some "Proj"⟩, none⟩] 999
    (by decide)
  refine ⟨h.1, ?_⟩
  rw [h.2.2]
  decide

/-! ### C8: the get_todays_time summary line -/

theorem twoDigits_spec (m : Nat) :
    (twoDigits m).length = 2 ∧ ∀ c ∈ (twoDigits m).data, c.isDigit = true := by
  refine ⟨rfl, ?_⟩
  intro c hc
  have h1 : m / 10 % 10 < 10 := Nat.mod_lt _ (by norm_num)
  have h2 : m % 10 < 10 := Nat.mod_lt _ (by norm_num)
  simp [twoDigits] at hc
  rcases hc with rfl | rfl
  · generalize m / 10 % 10 = d at h1
    interval_cases d <;> decide
  · generalize m % 10 = d at h2
    interval_cases d <;> decide

theorem toFixed2_shape (q : ℚ) :
    ∃ ip fp, toFixed2 q = ip ++ "." ++ fp ∧ fp.length = 2 ∧
      ∀ c ∈ fp.data, c.isDigit = true :=
  ⟨(if (⌊q * 100 + 1 / 2⌋ : Int) < 0 then "-" else "") ++
      toString ((⌊q * 100 + 1 / 2⌋ : Int).natAbs / 100),
    twoDigits ((⌊q * 100 + 1 / 2⌋ : Int).natAbs % 100), rfl,
    (twoDigits_spec _).1, (twoDigits_spec _).2⟩

/-- C8: every successful `get_todays_time` response is a non-error envelope
whose text is the summary line — the entry count and the sum of the entries'
hours rendered by `toFixed2` with exactly two decimal places (witnessed by
the shape decomposition) — followed by the JSON dump of the mapped
entries. -/
theorem getTodaysTime_summary (now : Nat) (raw : List RawTimeEntry) :
    (getTodaysTimeRun now (.ok raw)).2.2.isError = false ∧
    (getTodaysTimeRun now (.ok raw)).2.2.text =
      "Today\x27s time entries (" ++ toString raw.length ++ " total, " ++
        toFixed2 (raw.foldl (fun s e => s + e.hours) 0) ++ " hours):\n\n" ++
        stringify2 ((raw.map toEntryView).map entryRow) ∧
    ∃ ip fp, toFixed2 (raw.foldl (fun s e => s + e.hours) 0) = ip ++ "." ++ fp ∧
      fp.length = 2 ∧ ∀ c ∈ fp.data, c.isDigit = true := by
  refine ⟨rfl, ?_, toFixed2_shape _⟩
  simp only [getTodaysTimeRun]
  rw [List.length_map, List.foldl_map]
  rfl

/-- Witness for C8 on three entries of 1, 2.25, and 0.5 hours: the summary
line reports "3 total, 3.75 hours". -/
theorem getTodaysTime_summary_witness :
    ∃ rest, (getTodaysTimeRun 0 (.ok
        [⟨1, ⟨1, "P"⟩, ⟨2, "T"⟩, 1, none, false⟩,
         ⟨2, ⟨1, "P"⟩, ⟨2, "T"⟩, 2.25, none, false⟩,
         ⟨3, ⟨1, "P"⟩, ⟨2, "T"⟩, 0.5, none, true⟩])).2.2.text =
      "Today\x27s time entries (3 total, 3.75 hours):\n\n" ++ rest := by
  refine ⟨stringify2 (([(⟨1, ⟨1, "P"⟩, ⟨2, "T"⟩, 1, none, false⟩ : RawTimeEntry),
    ⟨2, ⟨1, "P"⟩, ⟨2, "T"⟩, 2.25, none, false⟩,
    ⟨3, ⟨1, "P"⟩, ⟨2, "T"⟩, 0.5, none, true⟩].map toEntryView).map entryRow), ?_⟩
  have h := (getTodaysTime_summary 0
    [⟨1, ⟨1, "P"⟩, ⟨2, "T"⟩, 1, none, false⟩,
     ⟨2, ⟨1, "P"⟩, ⟨2, "T"⟩, 2.25, none, false⟩,
     ⟨3, ⟨1, "P"⟩, ⟨2, "T"⟩, 0.5, none, true⟩]).2.1
  rw [h]
  have hfl : (⌊(List.foldl (fun (s : ℚ) (e : RawTimeEntry) => s + e.hours) 0
      [⟨1, ⟨1, "P"⟩, ⟨2, "T"⟩, 1, none, false⟩,
       ⟨2, ⟨1, "P"⟩, ⟨2, "T"⟩, 2.25, none, false⟩,
       ⟨3, ⟨1, "P"⟩, ⟨2, "T"⟩, 0.5, none, true⟩]) * 100 + 1 / 2⌋ : Int) = 375 := by
    have hsum : (List.foldl (fun (s : ℚ) (e : RawTimeEntry) => s + e.hours) 0
        [⟨1, ⟨1, "P"⟩, ⟨2, "T"⟩, 1, none, false⟩,
         ⟨2, ⟨1, "P"⟩, ⟨2, "T"⟩, 2.25, none, false⟩,
         ⟨3, ⟨1, "P"⟩, ⟨2, "T"⟩, 0.5, none, true⟩] : ℚ) = 15 / 4 := by
      show ((0 : ℚ) + 1 + 2.25 + 0.5) = 15 / 4
      norm_num
    rw [hsum, Int.floor_eq_iff]
    norm_num
  have hfix : toFixed2 (List.foldl (fun (s : ℚ) (e : RawTimeEntry) => s + e.hours) 0
      [⟨1, ⟨1, "P"⟩, ⟨2, "T"⟩, 1, none, false⟩,
       ⟨2, ⟨1, "P"⟩, ⟨2, "T"⟩, 2.25, none, false⟩,
       ⟨3, ⟨1, "P"⟩, ⟨2, "T"⟩, 0.5, none, true⟩]) = "3.75" := by
    simp only [toFixed2, hfl]
    decide
  rw [hfix]
  congr 1

/-! ### C9: "today" is the UTC calendar date -/

/-- C9: the "today" used by `get_todays_time` (both query bounds), by
`log_time` when `spent_date` is omitted, and by `start_timer` is
`formatDate` of the host clock — the date part of the ISO-8601 UTC
timestamp, a function of the instant alone (no zone offset enters) — and the
host's local calendar date can differ: at the concrete instant
1728000000000 ms (midnight UTC) a host at UTC-1 is still on the previous
calendar day, one day earlier. -/
theorem today_is_utc_calendar_date :
    (∀ (now : Nat) (u : Upstream (List RawTimeEntry)),
      (getTodaysTimeRun now u).1 = formatDate now ∧
      (getTodaysTimeRun now u).2.1 = formatDate now) ∧
    (∀ (now : Nat) (st : List Nat) (a : LogArgs) (u : Upstream CreatedEntry),
      a.spent_date = none → (checkRateLimit now st).1 = true →
      ∀ p ∈ (logTimeRun now st a u).2.2, p.spent_date = formatDate now) ∧
    (∀ (now : Nat) (st : List Nat) (a : StartArgs) (u : Upstream CreatedEntry),
      (checkRateLimit now st).1 = true →
      ∀ p ∈ (startTimerRun now st a u).2.2, p.spent_date = formatDate now) ∧
    formatDate 1728000000000 = "2024-10-04" ∧
    localDateString 1728000000000 (-60) = "2024-10-03" ∧
    localDateString 1728000000000 (-60) ≠ formatDate 1728000000000 ∧
    ((1728000000000 : Int) + (-60) * 60000).toNat / MS_PER_DAY + 1 =
      1728000000000 / MS_PER_DAY := by
  refine ⟨?_, ?_, ?_, by decide, by decide, by decide, by decide⟩
  · intro now u
    cases u <;> exact ⟨rfl, rfl⟩
  · intro now st a u hsd hadm p hp
    rcases checkRateLimit_cases now st with ⟨_, heq⟩ | ⟨h1, _⟩
    · cases u <;> (simp [logTimeRun, heq, hsd] at hp; subst hp; rfl)
    · rw [h1] at hadm
      cases hadm
  · intro now st a u hadm p hp
    rcases checkRateLimit_cases now st with ⟨_, heq⟩ | ⟨h1, _⟩
    · cases u <;> (simp [startTimerRun, heq] at hp; subst hp; rfl)
    · rw [h1] at hadm
      cases hadm

/-- Witness for C9: an admitted `log_time` call without `spent_date` at the
concrete instant sends the UTC date as its payload date. -/
theorem today_is_utc_calendar_date_witness :
    ((logTimeRun 1728000000000 [] ⟨1, 2, none, 1, none⟩
        (.ok ⟨9, ⟨1, "P"⟩, ⟨2, "T"⟩, 1, "2024-10-04", none⟩)).2.2).map
      LogPayload.spent_date = some (formatDate 1728000000000) := by
  have h := today_is_utc_calendar_date.2.1 1728000000000 []
    ⟨1, 2, none, 1, none⟩ (.ok ⟨9, ⟨1, "P"⟩, ⟨2, "T"⟩, 1, "2024-10-04", none⟩)
    rfl (by decide)
  exact congrArg some (h ⟨1, 2, formatDate 1728000000000, 1, ""⟩ rfl)

end Harvest
